import Mathlib

/-!
Verification of the grid/path game-logic engine of the dot-matching puzzle
(`src/components/Game.jsx`; an earlier revision of the same component is the
unnamed source file).  The definitions below are a shallow embedding of the
JavaScript source: JS arrays become `List`, the mutable component state becomes
an explicit `GameState` record, `Math.random` color draws become an injected
pick function, and each event handler becomes a state-transition function.
-/

/-- The palette `COLORS = ['red', 'blue', 'green']`. -/
inductive Color where
  | red
  | blue
  | green
deriving DecidableEq

/-- A grid cell `{ color, isEmpty }`.  The `color` field is an `Option`
because the cascade writes the object literal `{ isEmpty: true }`, whose
`color` property is absent (`undefined` in JS, `none` here). -/
structure Cell where
  color : Option Color
  isEmpty : Bool
deriving DecidableEq

/-- A board coordinate `{ x, y }` as produced by the UI adapter. -/
structure Pos where
  x : Nat
  y : Nat
deriving DecidableEq

/-- The grid is the row-major `grid` state array: `grid[y][x]`. -/
abbrev Grid := List (List Cell)

/-- `GRID_SIZE = 7`. -/
def GRID_SIZE : Nat := 7

/-- `CENTER = Math.floor(GRID_SIZE / 2)`. -/
def CENTER : Nat := GRID_SIZE / 2

/-- Default cell used for out-of-range `getD` reads; it is empty and colorless,
mirroring that a JS out-of-range read yields no dot data. -/
def dCell : Cell := { color := none, isEmpty := true }

/-- Default position for `getD` reads of position lists. -/
def dPos : Pos := { x := 0, y := 0 }

/-- Read `grid[y][x]`. -/
def getCell (g : Grid) (y x : Nat) : Cell :=
  (g.getD y []).getD x dCell

/-- Write `grid[y][x] = c`. -/
def setCell (g : Grid) (y x : Nat) (c : Cell) : Grid :=
  g.set y ((g.getD y []).set x c)

/-- The in-place mutation `grid[p.y][p.x].isEmpty = b`: the `color` field of
the cell object is kept, only the flag changes. -/
def setEmptyFlag (g : Grid) (p : Pos) (b : Bool) : Grid :=
  setCell g p.y p.x { color := (getCell g p.y p.x).color, isEmpty := b }

/-- `initializeGrid` (Game.jsx lines 21-31): every cell gets a random color
and `isEmpty = false`; then `newGrid[CENTER][CENTER].isEmpty = true`.
The random draws are injected through `pick y x`. -/
def initializeGrid (pick : Nat → Nat → Color) : Grid :=
  setEmptyFlag
    ((List.range GRID_SIZE).map fun y =>
      (List.range GRID_SIZE).map fun x =>
        { color := some (pick y x), isEmpty := false })
    { x := CENTER, y := CENTER } true

/-- `isAdjacent` (Game.jsx lines 33-38): `dx <= 1 && dy <= 1` but not the
same cell, with `dx = Math.abs(pos1.x - pos2.x)` etc. -/
def isAdjacent (p1 p2 : Pos) : Bool :=
  let dx := ((p1.x : Int) - (p2.x : Int)).natAbs
  let dy := ((p1.y : Int) - (p2.y : Int)).natAbs
  (decide (dx ≤ 1) && decide (dy ≤ 1)) && !(decide (dx = 0) && decide (dy = 0))

/-- JS strict equality `===` on `cell.color` versus `selectedColor`:
`undefined === null`, `undefined === 'red'` and `null === 'red'` are all
`false`; two color strings compare by value. -/
def jsStrictEq (a b : Option Color) : Bool :=
  match a, b with
  | some c, some d => c == d
  | _, _ => false

/-- The whole component state: the seven `useState` hooks of `Game()`. -/
structure GameState where
  grid : Grid
  path : List Pos
  selectedColor : Option Color
  characterPos : Pos
  isDragging : Bool
  isAnimating : Bool
  animStep : Nat
deriving DecidableEq

/-- The state right after mount: `useState` initial values followed by the
`initializeGrid()` effect (which also resets `path` to the center anchor). -/
def initState (pick : Nat → Nat → Color) : GameState :=
  { grid := initializeGrid pick
    path := [{ x := CENTER, y := CENTER }]
    selectedColor := none
    characterPos := { x := CENTER, y := CENTER }
    isDragging := false
    isAnimating := false
    animStep := 0 }

/-- Body of `handleCellClick` after `const cell = grid[y][x]`
(Game.jsx lines 43-64), parameterized by the looked-up cell. -/
def handleCellClickCore (s : GameState) (cell : Cell) (x y : Nat) : GameState :=
  if cell.isEmpty ||
      (decide (0 < s.path.length) &&
        !isAdjacent (s.path.getD (s.path.length - 1) dPos) { x := x, y := y }) then
    s
  else if s.path.length = 1 then
    if isAdjacent s.characterPos { x := x, y := y } then
      { s with path := s.path ++ [{ x := x, y := y }], selectedColor := cell.color }
    else s
  else if jsStrictEq cell.color s.selectedColor then
    if s.path.any (fun pos => pos.x == x && pos.y == y) then s
    else { s with path := s.path ++ [{ x := x, y := y }] }
  else s

/-- `handleCellClick` (Game.jsx lines 40-65) with the unchecked array read
`grid[y][x]` modelled by a defaulted read. -/
def handleCellClick (s : GameState) (x y : Nat) : GameState :=
  handleCellClickCore s (getCell s.grid y x) x y

/-- `handleCellClick` with the JS access `grid[y][x]` modelled faithfully as
fallible: if `grid[y]` is `undefined`, or the cell is `undefined` so that
`cell.isEmpty` throws a TypeError, the handler does not return a state
(`none`).  Otherwise it behaves as the body on the looked-up cell. -/
def handleCellClickFallible (s : GameState) (x y : Nat) : Option GameState :=
  match (s.grid.get? y).bind (fun row => row.get? x) with
  | none => none
  | some cell => some (handleCellClickCore s cell x y)

/-- `confirmPath` (Game.jsx lines 116-120). -/
def confirmPath (s : GameState) : GameState :=
  if s.path.length = 1 || s.isAnimating then s
  else { s with isAnimating := true, animStep := 0 }

/-- `cancelPath` (Game.jsx lines 122-125). -/
def cancelPath (s : GameState) : GameState :=
  { s with path := [{ x := s.characterPos.x, y := s.characterPos.y }],
           selectedColor := none }

/-- The grid update at the start of the commit branch of the animation effect
(Game.jsx lines 72-77): every path cell gets `isEmpty = true`, then
`newGrid[characterPos.y][characterPos.x].isEmpty = false`. -/
def commitGrid (g : Grid) (path : List Pos) (charPos : Pos) : Grid :=
  setEmptyFlag (path.foldl (fun g' p => setEmptyFlag g' p true) g) charPos false

/-- The inner `for (let y = GRID_SIZE - 1; y >= 0; y--)` scan of the cascade
(Game.jsx lines 81-91) for column `x`.  The countdown `k` means the indices
`k-1, k-2, ..., 0` are still to be processed.  An empty cell pushes its row
index onto the back of `emptySpaces`; a non-empty cell with a pending empty
moves into `emptySpaces[0]`, leaves `{ isEmpty: true }` behind, removes the
used slot (`shift`) and puts the vacated row at the front (`unshift`). -/
def fallScanG (x : Nat) : Nat → Grid → List Nat → Grid × List Nat
  | 0, g, emptySpaces => (g, emptySpaces)
  | Nat.succ y, g, emptySpaces =>
    if (getCell g y x).isEmpty then
      fallScanG x y g (emptySpaces ++ [y])
    else
      match emptySpaces with
      | [] => fallScanG x y g emptySpaces
      | newY :: rest =>
        fallScanG x y
          (setCell (setCell g newY x (getCell g y x)) y x { color := none, isEmpty := true })
          (y :: rest)

/-- The refill `emptySpaces.forEach(...)` (Game.jsx lines 93-98): every row
index left in `emptySpaces` receives a fresh random non-empty dot. -/
def refillG (pick : Nat → Nat → Color) (x : Nat) (g : Grid) (emptySpaces : List Nat) : Grid :=
  emptySpaces.foldl (fun g' y => setCell g' y x { color := some (pick x y), isEmpty := false }) g

/-- One iteration of the outer `for (let x = 0; ...)` loop: scan column `x`
then refill it. -/
def cascadeColumn (pick : Nat → Nat → Color) (x : Nat) (g : Grid) : Grid :=
  let r := fallScanG x GRID_SIZE g []
  refillG pick x r.1 r.2

/-- The full "Make dots fall" cascade (Game.jsx lines 78-99; identically
lines 78-100 of the earlier revision's `confirmPath`). -/
def cascadeG (pick : Nat → Nat → Color) (g : Grid) : Grid :=
  (List.range GRID_SIZE).foldl (fun g' x => cascadeColumn pick x g') g

/-- One execution of the animation effect (Game.jsx lines 68-114).  A walking
tick moves the character to `path[animStep]` and (after the 360ms timeout)
increments `animStep`; once `animStep >= path.length` the effect instead
commits: clear the path cells, run `newGrid[characterPos.y][characterPos.x]
.isEmpty = false`, cascade, re-anchor the path at the character and reset the
animation.  `pick` injects the random colors the cascade's refill draws. -/
def tickStep (pick : Nat → Nat → Color) (s : GameState) : GameState :=
  if !s.isAnimating || s.path.length = 1 then s
  else if s.path.length ≤ s.animStep then
    { s with
      grid := cascadeG pick (commitGrid s.grid s.path s.characterPos)
      path := [{ x := s.characterPos.x, y := s.characterPos.y }]
      selectedColor := none
      isAnimating := false
      animStep := 0 }
  else
    { s with
      characterPos :=
        { x := (s.path.getD s.animStep dPos).x, y := (s.path.getD s.animStep dPos).y }
      animStep := s.animStep + 1 }

/-- The events the UI adapter can deliver to the component.  `tick` carries
the random colors a commit's cascade would draw. -/
inductive Event where
  | click (x y : Nat)
  | mouseDown (x y : Nat)
  | mouseEnter (x y : Nat)
  | touchStart (x y : Nat)
  | touchMove (x y : Nat)
  | mouseUp
  | touchEnd
  | confirmBtn
  | cancelBtn
  | tick (pick : Nat → Nat → Color)

/-- One event dispatch, with exactly the guards present in the source: the
per-cell `onClick` / `onMouseDown` / `onMouseEnter` / `onTouchStart` handlers
are wrapped in `!isAnimating && ...` (Game.jsx lines 201-204);
`handleCellMouseEnter` additionally requires `isDragging` (line 141);
`handleCellTouchMove` (lines 152-162) checks only `isDragging`; the window
`mouseup`/`touchend` listeners clear `isDragging`; the Confirm and Cancel
buttons exist only while `path.length > 0 && !isAnimating` (line 235). -/
def stepFn (s : GameState) : Event → GameState
  | Event.click x y => if s.isAnimating then s else handleCellClick s x y
  | Event.mouseDown x y =>
      if s.isAnimating then s else { handleCellClick s x y with isDragging := true }
  | Event.mouseEnter x y =>
      if s.isAnimating then s
      else if s.isDragging then handleCellClick s x y else s
  | Event.touchStart x y =>
      if s.isAnimating then s else { handleCellClick s x y with isDragging := true }
  | Event.touchMove x y => if s.isDragging then handleCellClick s x y else s
  | Event.mouseUp => { s with isDragging := false }
  | Event.touchEnd => { s with isDragging := false }
  | Event.confirmBtn =>
      if decide (0 < s.path.length) && !s.isAnimating then confirmPath s else s
  | Event.cancelBtn =>
      if decide (0 < s.path.length) && !s.isAnimating then cancelPath s else s
  | Event.tick pick => tickStep pick s

/-- Run a list of events from a state. -/
def runTrace (s : GameState) (es : List Event) : GameState :=
  es.foldl stepFn s

/-- The states the mounted component can reach. -/
inductive Reachable (pick : Nat → Nat → Color) : GameState → Prop where
  | init : Reachable pick (initState pick)
  | step : ∀ {s : GameState}, Reachable pick s → ∀ e : Event, Reachable pick (stepFn s e)

/-- The states reachable without any animation tick (the effect at Game.jsx
lines 68-114 never running its body). -/
inductive ReachableNT (pick : Nat → Nat → Color) : GameState → Prop where
  | init : ReachableNT pick (initState pick)
  | step : ∀ {s : GameState}, ReachableNT pick s → ∀ e : Event,
      (∀ f, e ≠ Event.tick f) → ReachableNT pick (stepFn s e)

/-- Constant color supply used for concrete runs. -/
def crRed : Nat → Nat → Color := fun _ _ => Color.red

/-- Well-formedness of the grid array: `GRID_SIZE` rows of `GRID_SIZE` cells,
as produced by `initializeGrid`. -/
def ShapeG (g : Grid) : Prop :=
  g.length = GRID_SIZE ∧ ∀ i, i < GRID_SIZE → (g.getD i []).length = GRID_SIZE

/-- Every non-empty cell carries an actual color (its `color` property is not
`undefined`).  Holds in all reachable grids: only the cascade's transient
`{ isEmpty: true }` objects lack a color, and those are empty. -/
def NonEmptySome (g : Grid) : Prop :=
  ∀ y x, (getCell g y x).isEmpty = false → (getCell g y x).color ≠ none

/-- Number of non-empty cells in column `x`. -/
def colCount (g : Grid) (x : Nat) : Nat :=
  ((List.range GRID_SIZE).filter (fun y => !(getCell g y x).isEmpty)).length

/-- Invariant of the inner cascade scan for column `x`, when rows
`k, k+1, ..., GRID_SIZE-1` have been processed: `emptySpaces` holds exactly
the currently empty processed rows, without duplicates. -/
def colInv (x k : Nat) (g : Grid) (empt : List Nat) : Prop :=
  ShapeG g ∧
  (∀ i ∈ empt, k ≤ i ∧ i < GRID_SIZE ∧ (getCell g i x).isEmpty = true) ∧
  (∀ i, k ≤ i → i < GRID_SIZE → (getCell g i x).isEmpty = true → i ∈ empt) ∧
  empt.Nodup

/-- Master invariant of the reachable component states: a well-shaped grid
whose non-empty cells all carry a color; a never-empty, duplicate-free path
of in-range positions whose non-anchor cells are non-empty and match
`selectedColor`; `selectedColor` set exactly when the path has grown past the
anchor; the anchor coinciding with the character whenever no animation runs;
and during an animation a path of length at least two containing the
character's current position. -/
def StateInv (s : GameState) : Prop :=
  ShapeG s.grid ∧
  NonEmptySome s.grid ∧
  s.path ≠ [] ∧
  s.path.Nodup ∧
  (∀ p ∈ s.path.drop 1,
      (getCell s.grid p.y p.x).isEmpty = false ∧
      (getCell s.grid p.y p.x).color = s.selectedColor) ∧
  (s.selectedColor = none ↔ s.path.length = 1) ∧
  (s.isAnimating = false → s.path.headD dPos = s.characterPos) ∧
  (s.isAnimating = true → 2 ≤ s.path.length) ∧
  (∀ p ∈ s.path, p.x < GRID_SIZE ∧ p.y < GRID_SIZE) ∧
  (s.characterPos.x < GRID_SIZE ∧ s.characterPos.y < GRID_SIZE) ∧
  (s.isAnimating = true → s.characterPos ∈ s.path) ∧
  (getCell s.grid (s.path.headD dPos).y (s.path.headD dPos).x).color ≠ none

/-- Color supply that makes row `y = 2` blue and everything else red; used to
build a reachable state with a wrong-colored neighbor. -/
def crMix : Nat → Nat → Color := fun y _ => if y = 2 then Color.blue else Color.red

/-- A blue dot. -/
def bDot : Cell := { color := some Color.blue, isEmpty := false }

/-- A cleared cell that kept its color field (as commit leaves behind). -/
def bHole : Cell := { color := some Color.blue, isEmpty := true }

/-- A row whose first cell is `c` and whose other cells are blue dots. -/
def rowEx (c : Cell) : List Cell :=
  [c, bDot, bDot, bDot, bDot, bDot, bDot]

/-- Grid whose column 0 reads, from top (`y = 0`) to bottom (`y = 6`):
dot, dot, hole, hole, dot, dot, dot — the shape column 4 takes after
committing the path (3,3) → (4,2) → (4,3) → (5,4). -/
def gridEx : Grid :=
  [rowEx bDot, rowEx bDot, rowEx bHole, rowEx bHole, rowEx bDot, rowEx bDot, rowEx bDot]

/-- Reachable state mid-animation: the path (3,3) → (4,3) was confirmed and
two walking ticks ran, so the character stands on (4,3) while the grid is
still untouched. -/
def sWalk : GameState :=
  runTrace (initState crRed)
    [Event.click 4 3, Event.confirmBtn, Event.tick crRed, Event.tick crRed]

/-- Reachable state right after the commit/cascade tick of the same play. -/
def sCommit : GameState :=
  runTrace (initState crRed)
    [Event.click 4 3, Event.confirmBtn, Event.tick crRed, Event.tick crRed, Event.tick crRed]

/-- Reachable state in which a touch drag is still active (`isDragging`)
while the animation has started: touch-start on (4,3) extended the path and
began a drag, then Confirm was pressed without a `touchend`. -/
def sDragAnim : GameState :=
  runTrace (initState crRed) [Event.touchStart 4 3, Event.confirmBtn]

/-- Reachable state with a two-cell path and `lockedColor = red`, over the
`crMix` grid (row 2 blue, everything else red). -/
def sMixPath : GameState :=
  runTrace (initState crMix) [Event.click 4 3]

/-! Basic list indexing lemmas used throughout. -/

theorem lset_oob {α : Type} (l : List α) (i : Nat) (a : α) (h : l.length ≤ i) :
    l.set i a = l := by
  induction l generalizing i with
  | nil => rfl
  | cons b t ih =>
    cases i with
    | zero => simp at h
    | succ j => simp only [List.set]; rw [ih j (by simpa using h)]

theorem lgetD_oob {α : Type} (l : List α) (i : Nat) (d : α) (h : l.length ≤ i) :
    l.getD i d = d := by
  induction l generalizing i with
  | nil => cases i <;> rfl
  | cons b t ih =>
    cases i with
    | zero => simp at h
    | succ j => simpa using ih j (by simpa using h)

theorem lgetD_set_self {α : Type} (l : List α) (i : Nat) (a d : α) (h : i < l.length) :
    (l.set i a).getD i d = a := by
  induction l generalizing i with
  | nil => simp at h
  | cons b t ih =>
    cases i with
    | zero => rfl
    | succ j => simpa using ih j (by simpa using h)

theorem lgetD_set_ne {α : Type} (l : List α) (i j : Nat) (a d : α) (h : i ≠ j) :
    (l.set i a).getD j d = l.getD j d := by
  induction l generalizing i j with
  | nil => rfl
  | cons b t ih =>
    cases i with
    | zero => cases j with
      | zero => exact absurd rfl h
      | succ j' => rfl
    | succ i' =>
      cases j with
      | zero => rfl
      | succ j' => simpa using ih i' j' (fun he => h (by rw [he]))

/-! Cell-level get/set lemmas. -/

theorem getCell_setCell_self (g : Grid) (y x : Nat) (c : Cell)
    (hy : y < g.length) (hx : x < (g.getD y []).length) :
    getCell (setCell g y x c) y x = c := by
  unfold getCell setCell
  rw [lgetD_set_self _ _ _ _ hy, lgetD_set_self _ _ _ _ hx]

theorem getCell_setCell_ne (g : Grid) (y x : Nat) (c : Cell) (y' x' : Nat)
    (h : y' ≠ y ∨ x' ≠ x) :
    getCell (setCell g y x c) y' x' = getCell g y' x' := by
  unfold getCell setCell
  rcases h with h | h
  · rw [lgetD_set_ne _ _ _ _ _ (fun he => h he.symm)]
  · by_cases hy : y' = y
    · subst hy
      by_cases hlen : y' < g.length
      · rw [lgetD_set_self _ _ _ _ hlen, lgetD_set_ne _ _ _ _ _ (fun he => h he.symm)]
      · rw [lset_oob _ _ _ (le_of_not_lt hlen)]
    · rw [lgetD_set_ne _ _ _ _ _ (fun he => hy he.symm)]

theorem getCell_setCell_cases (g : Grid) (y x : Nat) (c : Cell) (y' x' : Nat) :
    getCell (setCell g y x c) y' x' = c ∨
      getCell (setCell g y x c) y' x' = getCell g y' x' := by
  by_cases hy : y' = y
  · by_cases hx : x' = x
    · subst hy; subst hx
      by_cases h1 : y' < g.length
      · by_cases h2 : x' < (g.getD y' []).length
        · exact Or.inl (getCell_setCell_self g y' x' c h1 h2)
        · right
          unfold getCell setCell
          rw [lgetD_set_self _ _ _ _ h1, lset_oob _ _ _ (le_of_not_lt h2)]
      · right
        unfold getCell setCell
        rw [lset_oob _ _ _ (le_of_not_lt h1)]
    · exact Or.inr (getCell_setCell_ne g y x c y' x' (Or.inr hx))
  · exact Or.inr (getCell_setCell_ne g y x c y' x' (Or.inl hy))

theorem shapeG_setCell {g : Grid} (h : ShapeG g) (y x : Nat) (c : Cell) :
    ShapeG (setCell g y x c) := by
  obtain ⟨h1, h2⟩ := h
  constructor
  · unfold setCell; rw [List.length_set]; exact h1
  · intro i hi
    unfold setCell
    by_cases hy : i = y
    · subst hy
      by_cases hl : i < g.length
      · rw [lgetD_set_self _ _ _ _ hl, List.length_set]; exact h2 i hi
      · rw [lset_oob _ _ _ (le_of_not_lt hl)]; exact h2 i hi
    · rw [lgetD_set_ne _ _ _ _ _ (fun he => hy he.symm)]; exact h2 i hi

theorem getCell_oob {g : Grid} (hs : ShapeG g) {y x : Nat}
    (h : GRID_SIZE ≤ y ∨ GRID_SIZE ≤ x) : getCell g y x = dCell := by
  obtain ⟨h1, h2⟩ := hs
  unfold getCell
  rcases h with h | h
  · rw [lgetD_oob (α := List Cell) _ _ _ (by rw [h1]; exact h)]
    rfl
  · by_cases hy : y < GRID_SIZE
    · exact lgetD_oob _ _ _ (by rw [h2 y hy]; exact h)
    · rw [lgetD_oob (α := List Cell) _ _ _ (by rw [h1]; omega)]
      rfl

theorem nonempty_in_range {g : Grid} (hs : ShapeG g) {y x : Nat}
    (h : (getCell g y x).isEmpty = false) : y < GRID_SIZE ∧ x < GRID_SIZE := by
  by_cases hy : y < GRID_SIZE
  · by_cases hx : x < GRID_SIZE
    · exact ⟨hy, hx⟩
    · rw [getCell_oob hs (Or.inr (le_of_not_lt hx))] at h
      exact absurd h (by decide)
  · rw [getCell_oob hs (Or.inl (le_of_not_lt hy))] at h
    exact absurd h (by decide)

/-! Correctness machinery for the cascade's inner scan. -/

theorem fallScanG_inv (x : Nat) (hx : x < GRID_SIZE) :
    ∀ (k : Nat) (g : Grid) (empt : List Nat), k ≤ GRID_SIZE → colInv x k g empt →
      colInv x 0 (fallScanG x k g empt).1 (fallScanG x k g empt).2 := by
  intro k
  induction k with
  | zero =>
    intro g empt _ h
    simpa [fallScanG] using h
  | succ y ih =>
    intro g empt hk h
    obtain ⟨hshape, h1, h2, h3⟩ := h
    have hy7 : y < GRID_SIZE := by omega
    by_cases hemp : (getCell g y x).isEmpty = true
    · rw [show fallScanG x (y + 1) g empt = fallScanG x y g (empt ++ [y]) by
        simp [fallScanG, hemp]]
      apply ih _ _ (by omega)
      refine ⟨hshape, ?_, ?_, ?_⟩
      · intro i hi
        rcases List.mem_append.mp hi with hi | hi
        · obtain ⟨ha, hb, hc⟩ := h1 i hi
          exact ⟨by omega, hb, hc⟩
        · have : i = y := by simpa using hi
          subst this
          exact ⟨le_refl _, hy7, hemp⟩
      · intro i hiy hi7 hie
        rcases eq_or_lt_of_le hiy with he | hlt
        · exact List.mem_append.mpr (Or.inr (by simp [he.symm]))
        · exact List.mem_append.mpr (Or.inl (h2 i (by omega) hi7 hie))
      · rw [List.nodup_append]
        refine ⟨h3, List.nodup_singleton _, ?_⟩
        intro a ha hay
        have : a = y := by simpa using hay
        subst this
        obtain ⟨hc, _, _⟩ := h1 a ha
        omega
    · have hemp' : (getCell g y x).isEmpty = false := by
        exact Bool.not_eq_true _ ▸ (by simpa using hemp)
      cases hempt : empt with
      | nil =>
        subst hempt
        rw [show fallScanG x (y + 1) g [] = fallScanG x y g [] by
          simp [fallScanG, hemp']]
        apply ih _ _ (by omega)
        refine ⟨hshape, by simp, ?_, List.nodup_nil⟩
        intro i hiy hi7 hie
        rcases eq_or_lt_of_le hiy with he | hlt
        · rw [← he] at hie
          rw [hie] at hemp'
          simp at hemp'
        · exact h2 i (by omega) hi7 hie
      | cons newY rest =>
        subst hempt
        obtain ⟨hnY1, hnY7, hnYe⟩ := h1 newY (List.mem_cons_self _ _)
        have hnodup := List.nodup_cons.mp h3
        obtain ⟨g1, hg1def⟩ : ∃ g1, g1 = setCell g newY x (getCell g y x) := ⟨_, rfl⟩
        obtain ⟨g2, hg2⟩ : ∃ g2, g2 = setCell g1 y x { color := none, isEmpty := true } :=
          ⟨_, rfl⟩
        rw [show fallScanG x (y + 1) g (newY :: rest) = fallScanG x y g2 (y :: rest) by
          rw [hg2, hg1def]
          simp [fallScanG, hemp']]
        have hglen : g.length = GRID_SIZE := hshape.1
        have hshape1 : ShapeG g1 := by rw [hg1def]; exact shapeG_setCell hshape newY x _
        have hshape2 : ShapeG g2 := by rw [hg2]; exact shapeG_setCell hshape1 y x _
        have hg1len : g1.length = GRID_SIZE := hshape1.1
        have hread_y : getCell g2 y x = { color := none, isEmpty := true } := by
          rw [hg2]
          apply getCell_setCell_self
          · omega
          · rw [hshape1.2 y hy7]; exact hx
        have hread_newY : getCell g2 newY x = getCell g y x := by
          rw [hg2, getCell_setCell_ne _ _ _ _ _ _ (Or.inl (by omega : newY ≠ y)), hg1def]
          apply getCell_setCell_self
          · omega
          · rw [hshape.2 newY hnY7]; exact hx
        have hread_other : ∀ i, i ≠ y → i ≠ newY → getCell g2 i x = getCell g i x := by
          intro i hiy hinY
          rw [hg2, getCell_setCell_ne _ _ _ _ _ _ (Or.inl hiy), hg1def,
              getCell_setCell_ne _ _ _ _ _ _ (Or.inl hinY)]
        apply ih _ _ (by omega)
        refine ⟨hshape2, ?_, ?_, ?_⟩
        · intro i hi
          rcases List.mem_cons.mp hi with he | hi
          · subst he
            exact ⟨le_refl _, hy7, by rw [hread_y]⟩
          · obtain ⟨ha, hb, hcell⟩ := h1 i (List.mem_cons.mpr (Or.inr hi))
            have hiy : i ≠ y := by omega
            have hinY : i ≠ newY := fun he => hnodup.1 (he ▸ hi)
            exact ⟨by omega, hb, by rw [hread_other i hiy hinY]; exact hcell⟩
        · intro i hiy hi7 hie
          rcases eq_or_lt_of_le hiy with he | hlt
          · exact he ▸ List.mem_cons_self _ _
          · have hiy' : i ≠ y := by omega
            by_cases hinY : i = newY
            · rw [hinY, hread_newY] at hie
              rw [hie] at hemp'
              simp at hemp'
            · rw [hread_other i hiy' hinY] at hie
              have := h2 i (by omega) hi7 hie
              rcases List.mem_cons.mp this with he | hi
              · exact absurd he hinY
              · exact List.mem_cons.mpr (Or.inr hi)
        · rw [List.nodup_cons]
          refine ⟨?_, hnodup.2⟩
          intro hmem
          obtain ⟨ha, _, _⟩ := h1 y (List.mem_cons.mpr (Or.inr hmem))
          omega

theorem fallScanG_frame (x : Nat) :
    ∀ (k : Nat) (g : Grid) (empt : List Nat) (y' x' : Nat), x' ≠ x →
      getCell ((fallScanG x k g empt).1) y' x' = getCell g y' x' := by
  intro k
  induction k with
  | zero => intro g empt y' x' _; rfl
  | succ y ih =>
    intro g empt y' x' hne
    by_cases hemp : (getCell g y x).isEmpty = true
    · rw [show fallScanG x (y + 1) g empt = fallScanG x y g (empt ++ [y]) by
        simp [fallScanG, hemp]]
      exact ih g (empt ++ [y]) y' x' hne
    · have hemp' : (getCell g y x).isEmpty = false := by
        exact Bool.not_eq_true _ ▸ (by simpa using hemp)
      cases hempt : empt with
      | nil =>
        rw [show fallScanG x (y + 1) g [] = fallScanG x y g [] by
          simp [fallScanG, hemp']]
        exact ih g [] y' x' hne
      | cons newY rest =>
        rw [show fallScanG x (y + 1) g (newY :: rest) =
            fallScanG x y
              (setCell (setCell g newY x (getCell g y x)) y x
                { color := none, isEmpty := true }) (y :: rest) by
          simp [fallScanG, hemp']]
        rw [ih _ _ y' x' hne,
            getCell_setCell_ne _ _ _ _ _ _ (Or.inr hne),
            getCell_setCell_ne _ _ _ _ _ _ (Or.inr hne)]

theorem fallScanG_nes (x : Nat) :
    ∀ (k : Nat) (g : Grid) (empt : List Nat), NonEmptySome g →
      NonEmptySome ((fallScanG x k g empt).1) := by
  intro k
  induction k with
  | zero => intro g empt h; exact h
  | succ y ih =>
    intro g empt hg
    by_cases hemp : (getCell g y x).isEmpty = true
    · rw [show fallScanG x (y + 1) g empt = fallScanG x y g (empt ++ [y]) by
        simp [fallScanG, hemp]]
      exact ih g _ hg
    · have hemp' : (getCell g y x).isEmpty = false := by
        exact Bool.not_eq_true _ ▸ (by simpa using hemp)
      cases hempt : empt with
      | nil =>
        rw [show fallScanG x (y + 1) g [] = fallScanG x y g [] by
          simp [fallScanG, hemp']]
        exact ih g [] hg
      | cons newY rest =>
        rw [show fallScanG x (y + 1) g (newY :: rest) =
            fallScanG x y
              (setCell (setCell g newY x (getCell g y x)) y x
                { color := none, isEmpty := true }) (y :: rest) by
          simp [fallScanG, hemp']]
        apply ih
        intro y0 x0 h0
        rcases getCell_setCell_cases (setCell g newY x (getCell g y x)) y x
            { color := none, isEmpty := true } y0 x0 with hc | hc
        · rw [hc] at h0; simp at h0
        · rw [hc] at h0 ⊢
          rcases getCell_setCell_cases g newY x (getCell g y x) y0 x0 with hc2 | hc2
          · rw [hc2] at h0 ⊢
            exact hg y x hemp'
          · rw [hc2] at h0 ⊢
            exact hg y0 x0 h0

/-! Refill and full-cascade lemmas. -/

theorem refillG_shape (pick : Nat → Nat → Color) (x : Nat) :
    ∀ (empt : List Nat) (g : Grid), ShapeG g → ShapeG (refillG pick x g empt) := by
  intro empt
  induction empt with
  | nil => intro g h; exact h
  | cons y rest ih =>
    intro g h
    exact ih _ (shapeG_setCell h y x _)

theorem refillG_frame (pick : Nat → Nat → Color) (x : Nat) :
    ∀ (empt : List Nat) (g : Grid) (y' x' : Nat), x' ≠ x →
      getCell (refillG pick x g empt) y' x' = getCell g y' x' := by
  intro empt
  induction empt with
  | nil => intro g y' x' _; rfl
  | cons y rest ih =>
    intro g y' x' hne
    show getCell (refillG pick x (setCell g y x _) rest) y' x' = _
    rw [ih _ y' x' hne, getCell_setCell_ne _ _ _ _ _ _ (Or.inr hne)]

theorem refillG_nes (pick : Nat → Nat → Color) (x : Nat) :
    ∀ (empt : List Nat) (g : Grid), NonEmptySome g → NonEmptySome (refillG pick x g empt) := by
  intro empt
  induction empt with
  | nil => intro g h; exact h
  | cons y rest ih =>
    intro g h
    apply ih
    intro y0 x0 h0
    rcases getCell_setCell_cases g y x { color := some (pick x y), isEmpty := false } y0 x0
      with hc | hc
    · rw [hc]; simp
    · rw [hc] at h0 ⊢
      exact h y0 x0 h0

theorem refillG_full (pick : Nat → Nat → Color) (x : Nat) (hx : x < GRID_SIZE) :
    ∀ (empt : List Nat) (g : Grid), ShapeG g →
      (∀ i ∈ empt, i < GRID_SIZE) →
      (∀ i, i < GRID_SIZE → (getCell g i x).isEmpty = true → i ∈ empt) →
      ∀ i, i < GRID_SIZE → (getCell (refillG pick x g empt) i x).isEmpty = false := by
  intro empt
  induction empt with
  | nil =>
    intro g _ _ h2 i hi
    cases he : (getCell g i x).isEmpty with
    | false => exact he
    | true => exact absurd (h2 i hi he) (List.not_mem_nil i)
  | cons y rest ih =>
    intro g hshape h1 h2 i hi
    have hy7 : y < GRID_SIZE := h1 y (List.mem_cons_self _ _)
    show (getCell (refillG pick x (setCell g y x _) rest) i x).isEmpty = false
    apply ih _ (shapeG_setCell hshape y x _)
    · intro j hj
      exact h1 j (List.mem_cons.mpr (Or.inr hj))
    · intro j hj hje
      by_cases hjy : j = y
      · subst hjy
        rw [getCell_setCell_self g j x _ (by rw [hshape.1]; exact hj)
          (by rw [hshape.2 j hj]; exact hx)] at hje
        simp at hje
      · rw [getCell_setCell_ne _ _ _ _ _ _ (Or.inl hjy)] at hje
        rcases List.mem_cons.mp (h2 j hj hje) with he | hm
        · exact absurd he hjy
        · exact hm
    · exact hi

theorem fallScanG_shape (x : Nat) :
    ∀ (k : Nat) (g : Grid) (empt : List Nat), ShapeG g →
      ShapeG ((fallScanG x k g empt).1) := by
  intro k
  induction k with
  | zero => intro g empt h; exact h
  | succ y ih =>
    intro g empt hg
    by_cases hemp : (getCell g y x).isEmpty = true
    · rw [show fallScanG x (y + 1) g empt = fallScanG x y g (empt ++ [y]) by
        simp [fallScanG, hemp]]
      exact ih g _ hg
    · have hemp' : (getCell g y x).isEmpty = false := by
        exact Bool.not_eq_true _ ▸ (by simpa using hemp)
      cases hempt : empt with
      | nil =>
        rw [show fallScanG x (y + 1) g [] = fallScanG x y g [] by
          simp [fallScanG, hemp']]
        exact ih g [] hg
      | cons newY rest =>
        rw [show fallScanG x (y + 1) g (newY :: rest) =
            fallScanG x y
              (setCell (setCell g newY x (getCell g y x)) y x
                { color := none, isEmpty := true }) (y :: rest) by
          simp [fallScanG, hemp']]
        exact ih _ _ (shapeG_setCell (shapeG_setCell hg newY x _) y x _)

theorem cascadeColumn_shape (pick : Nat → Nat → Color) (x : Nat) (g : Grid)
    (h : ShapeG g) : ShapeG (cascadeColumn pick x g) := by
  unfold cascadeColumn
  exact refillG_shape pick x _ _ (fallScanG_shape x GRID_SIZE g [] h)

theorem cascadeColumn_full (pick : Nat → Nat → Color) (x : Nat) (hx : x < GRID_SIZE)
    (g : Grid) (h : ShapeG g) :
    ∀ i, i < GRID_SIZE → (getCell (cascadeColumn pick x g) i x).isEmpty = false := by
  unfold cascadeColumn
  have hinv := fallScanG_inv x hx GRID_SIZE g [] (le_refl _)
    ⟨h, by simp, by intro i h1 h2 _; exfalso; omega, List.nodup_nil⟩
  obtain ⟨hsh, hin, hout, hnd⟩ := hinv
  apply refillG_full pick x hx _ _ hsh
  · intro i hi
    exact (hin i hi).2.1
  · intro i hi hie
    exact hout i (Nat.zero_le _) hi hie

theorem cascadeColumn_frame (pick : Nat → Nat → Color) (x : Nat) (g : Grid)
    (y' x' : Nat) (hne : x' ≠ x) :
    getCell (cascadeColumn pick x g) y' x' = getCell g y' x' := by
  unfold cascadeColumn
  rw [refillG_frame pick x _ _ y' x' hne, fallScanG_frame x GRID_SIZE g [] y' x' hne]

theorem cascadeColumn_nes (pick : Nat → Nat → Color) (x : Nat) (g : Grid)
    (h : NonEmptySome g) : NonEmptySome (cascadeColumn pick x g) := by
  unfold cascadeColumn
  exact refillG_nes pick x _ _ (fallScanG_nes x GRID_SIZE g [] h)

theorem cascadeG_fold (pick : Nat → Nat → Color) :
    ∀ (xs : List Nat) (g : Grid), (∀ x ∈ xs, x < GRID_SIZE) → ShapeG g →
      ShapeG (xs.foldl (fun g' x => cascadeColumn pick x g') g) ∧
      (∀ y' x', x' ∉ xs →
        getCell (xs.foldl (fun g' x => cascadeColumn pick x g') g) y' x' = getCell g y' x') ∧
      (∀ x ∈ xs, ∀ i, i < GRID_SIZE →
        (getCell (xs.foldl (fun g' x => cascadeColumn pick x g') g) i x).isEmpty = false) ∧
      (NonEmptySome g → NonEmptySome (xs.foldl (fun g' x => cascadeColumn pick x g') g)) := by
  intro xs
  induction xs with
  | nil =>
    intro g _ hs
    exact ⟨hs, fun _ _ _ => rfl, by simp, fun h => h⟩
  | cons x rest ih =>
    intro g hmem hs
    have hx7 : x < GRID_SIZE := hmem x (List.mem_cons_self _ _)
    have hs1 : ShapeG (cascadeColumn pick x g) := cascadeColumn_shape pick x g hs
    obtain ⟨ihs, ihframe, ihfull, ihnes⟩ :=
      ih (cascadeColumn pick x g) (fun a ha => hmem a (List.mem_cons.mpr (Or.inr ha))) hs1
    refine ⟨ihs, ?_, ?_, ?_⟩
    · intro y' x' hx'
      have hx'x : x' ≠ x := fun he => hx' (he ▸ List.mem_cons_self _ _)
      have hx'rest : x' ∉ rest := fun hm => hx' (List.mem_cons.mpr (Or.inr hm))
      show getCell (rest.foldl (fun g' a => cascadeColumn pick a g') (cascadeColumn pick x g))
          y' x' = getCell g y' x'
      rw [ihframe y' x' hx'rest, cascadeColumn_frame pick x g y' x' hx'x]
    · intro a ha i hi
      show (getCell (rest.foldl (fun g' b => cascadeColumn pick b g') (cascadeColumn pick x g))
          i a).isEmpty = false
      by_cases harest : a ∈ rest
      · exact ihfull a harest i hi
      · have hax : a = x := by
          rcases List.mem_cons.mp ha with he | hm
          · exact he
          · exact absurd hm harest
        subst hax
        rw [ihframe i a harest]
        exact cascadeColumn_full pick a hx7 g hs i hi
    · intro hnes
      exact ihnes (cascadeColumn_nes pick x g hnes)

theorem cascadeG_shape (pick : Nat → Nat → Color) (g : Grid) (h : ShapeG g) :
    ShapeG (cascadeG pick g) :=
  (cascadeG_fold pick (List.range GRID_SIZE) g (fun _ ha => List.mem_range.mp ha) h).1

theorem cascadeG_all_full (pick : Nat → Nat → Color) (g : Grid) (h : ShapeG g) :
    ∀ x, x < GRID_SIZE → ∀ i, i < GRID_SIZE →
      (getCell (cascadeG pick g) i x).isEmpty = false := by
  intro x hx i hi
  exact (cascadeG_fold pick (List.range GRID_SIZE) g (fun _ ha => List.mem_range.mp ha)
    h).2.2.1 x (List.mem_range.mpr hx) i hi

theorem cascadeG_nes (pick : Nat → Nat → Color) (g : Grid) (hs : ShapeG g)
    (h : NonEmptySome g) : NonEmptySome (cascadeG pick g) :=
  (cascadeG_fold pick (List.range GRID_SIZE) g (fun _ ha => List.mem_range.mp ha) hs).2.2.2 h

theorem cascadeG_all_some (pick : Nat → Nat → Color) (g : Grid) (hs : ShapeG g)
    (h : NonEmptySome g) :
    ∀ x, x < GRID_SIZE → ∀ i, i < GRID_SIZE →
      (getCell (cascadeG pick g) i x).isEmpty = false ∧
        (getCell (cascadeG pick g) i x).color ≠ none := by
  intro x hx i hi
  have hfull := cascadeG_all_full pick g hs x hx i hi
  exact ⟨hfull, cascadeG_nes pick g hs h i x hfull⟩

theorem colCount_full (g : Grid) (x : Nat)
    (h : ∀ i, i < GRID_SIZE → (getCell g i x).isEmpty = false) :
    colCount g x = GRID_SIZE := by
  unfold colCount
  rw [List.filter_eq_self.mpr, List.length_range]
  intro a ha
  rw [h a (List.mem_range.mp ha)]
  rfl

/-! Pointwise description of `setCell` and facts about the initial grid. -/

theorem lset_self {α : Type} (l : List α) (i : Nat) (d : α) (h : i < l.length) :
    l.set i (l.getD i d) = l := by
  induction l generalizing i with
  | nil => simp at h
  | cons b t ih =>
    cases i with
    | zero => rfl
    | succ j => simpa using ih j (by simpa using h)

theorem getCell_setCell_pointwise (g : Grid) (y x : Nat) (c : Cell) (y' x' : Nat) :
    getCell (setCell g y x c) y' x' =
      if y' = y ∧ x' = x ∧ y < g.length ∧ x < (g.getD y []).length then c
      else getCell g y' x' := by
  by_cases hy : y' = y
  · by_cases hx : x' = x
    · subst hy; subst hx
      by_cases h1 : y' < g.length
      · by_cases h2 : x' < (g.getD y' []).length
        · rw [if_pos ⟨rfl, rfl, h1, h2⟩]
          exact getCell_setCell_self g y' x' c h1 h2
        · rw [if_neg (by tauto)]
          unfold getCell setCell
          rw [lgetD_set_self _ _ _ _ h1, lset_oob _ _ _ (le_of_not_lt h2)]
      · rw [if_neg (by tauto)]
        unfold getCell setCell
        rw [lset_oob _ _ _ (le_of_not_lt h1)]
    · rw [if_neg (by tauto)]
      exact getCell_setCell_ne g y x c y' x' (Or.inr hx)
  · rw [if_neg (by tauto)]
    exact getCell_setCell_ne g y x c y' x' (Or.inl hy)

theorem lgetD_map_range {α : Type} (n : Nat) (f : Nat → α) (i : Nat) (d : α) :
    ((List.range n).map f).getD i d = if i < n then f i else d := by
  by_cases h : i < n
  · rw [if_pos h]
    have h1 : i < ((List.range n).map f).length := by simpa using h
    rw [List.getD_eq_getElem _ _ h1]
    simp
  · rw [if_neg h]
    exact lgetD_oob _ _ _ (by simpa using le_of_not_lt h)

theorem baseGrid_cell (pick : Nat → Nat → Color) (y x : Nat) :
    getCell
      ((List.range GRID_SIZE).map fun y0 =>
        (List.range GRID_SIZE).map fun x0 =>
          { color := some (pick y0 x0), isEmpty := false }) y x =
      if y < GRID_SIZE ∧ x < GRID_SIZE
      then { color := some (pick y x), isEmpty := false }
      else dCell := by
  unfold getCell
  rw [show ((List.range GRID_SIZE).map fun y0 =>
      (List.range GRID_SIZE).map fun x0 =>
        ({ color := some (pick y0 x0), isEmpty := false } : Cell)).getD y [] =
      if y < GRID_SIZE then (List.range GRID_SIZE).map fun x0 =>
        ({ color := some (pick y x0), isEmpty := false } : Cell)
      else [] from lgetD_map_range GRID_SIZE _ y []]
  by_cases hy : y < GRID_SIZE
  · rw [if_pos hy, lgetD_map_range]
    by_cases hx : x < GRID_SIZE
    · rw [if_pos hx, if_pos ⟨hy, hx⟩]
    · rw [if_neg hx, if_neg (by tauto)]
  · rw [if_neg hy, if_neg (by tauto)]
    cases x <;> rfl

theorem baseGrid_shape (pick : Nat → Nat → Color) :
    ShapeG ((List.range GRID_SIZE).map fun y0 =>
      (List.range GRID_SIZE).map fun x0 =>
        ({ color := some (pick y0 x0), isEmpty := false } : Cell)) := by
  constructor
  · simp
  · intro i hi
    rw [lgetD_map_range GRID_SIZE _ i [], if_pos hi]
    simp

theorem initializeGrid_shape (pick : Nat → Nat → Color) :
    ShapeG (initializeGrid pick) := by
  unfold initializeGrid setEmptyFlag
  exact shapeG_setCell (baseGrid_shape pick) _ _ _

theorem initializeGrid_cell (pick : Nat → Nat → Color) (y x : Nat) :
    getCell (initializeGrid pick) y x =
      if y < GRID_SIZE ∧ x < GRID_SIZE then
        (if y = CENTER ∧ x = CENTER
          then { color := some (pick CENTER CENTER), isEmpty := true }
          else { color := some (pick y x), isEmpty := false })
      else dCell := by
  unfold initializeGrid setEmptyFlag
  rw [getCell_setCell_pointwise]
  have hb := baseGrid_cell pick
  have hshape := baseGrid_shape pick
  have hcenter7 : CENTER < GRID_SIZE := by decide
  by_cases hyc : y = CENTER
  · by_cases hxc : x = CENTER
    · subst hyc; subst hxc
      rw [if_pos ⟨rfl, rfl, by rw [hshape.1]; exact hcenter7,
          by rw [hshape.2 CENTER hcenter7]; exact hcenter7⟩,
        if_pos ⟨hcenter7, hcenter7⟩, if_pos ⟨rfl, rfl⟩]
      rw [hb CENTER CENTER, if_pos ⟨hcenter7, hcenter7⟩]
    · rw [if_neg (by tauto), hb y x]
      by_cases hy : y < GRID_SIZE
      · by_cases hx : x < GRID_SIZE
        · rw [if_pos ⟨hy, hx⟩, if_pos ⟨hy, hx⟩, if_neg (by tauto)]
        · rw [if_neg (by tauto), if_neg (by tauto)]
      · rw [if_neg (by tauto), if_neg (by tauto)]
  · rw [if_neg (by tauto), hb y x]
    by_cases hy : y < GRID_SIZE
    · by_cases hx : x < GRID_SIZE
      · rw [if_pos ⟨hy, hx⟩, if_pos ⟨hy, hx⟩, if_neg (by tauto)]
      · rw [if_neg (by tauto), if_neg (by tauto)]
    · rw [if_neg (by tauto), if_neg (by tauto)]

theorem initializeGrid_nes (pick : Nat → Nat → Color) :
    NonEmptySome (initializeGrid pick) := by
  intro y x h
  rw [initializeGrid_cell] at h ⊢
  by_cases hin : y < GRID_SIZE ∧ x < GRID_SIZE
  · rw [if_pos hin] at h ⊢
    by_cases hc : y = CENTER ∧ x = CENTER
    · rw [if_pos hc]; simp
    · rw [if_neg hc]; simp
  · rw [if_neg hin] at h
    exact absurd h (by decide)

/-! Small facts about adjacency, color equality, and list heads. -/

theorem isAdjacent_irrefl (p : Pos) : isAdjacent p p = false := by
  unfold isAdjacent
  simp

theorem isAdjacent_ne {p q : Pos} (h : isAdjacent p q = true) : p ≠ q := by
  intro he
  subst he
  rw [isAdjacent_irrefl] at h
  exact absurd h (by decide)

theorem jsStrictEq_some {a b : Option Color} (h : jsStrictEq a b = true) :
    a = b ∧ a ≠ none := by
  unfold jsStrictEq at h
  cases a with
  | none => simp at h
  | some c =>
    cases b with
    | none => simp at h
    | some d =>
      simp at h
      exact ⟨by rw [h], by simp⟩

theorem headD_mem {α : Type} {l : List α} (d : α) (h : l ≠ []) : l.headD d ∈ l := by
  cases l with
  | nil => exact absurd rfl h
  | cons a t => exact List.mem_cons_self _ _

theorem headD_append {α : Type} {l : List α} (l2 : List α) (d : α) (h : l ≠ []) :
    (l ++ l2).headD d = l.headD d := by
  cases l with
  | nil => exact absurd rfl h
  | cons a t => rfl

theorem lgetD_mem {α : Type} {l : List α} {n : Nat} (d : α) (h : n < l.length) :
    l.getD n d ∈ l := by
  rw [List.getD_eq_getElem l d h]
  exact List.getElem_mem h

theorem mem_headD_or_drop {α : Type} {l : List α} {p : α} (d : α) (h : p ∈ l) :
    p = l.headD d ∨ p ∈ l.drop 1 := by
  cases l with
  | nil => simp at h
  | cons a t =>
    rcases List.mem_cons.mp h with he | hm
    · exact Or.inl he
    · exact Or.inr hm

theorem pos_any_mem (l : List Pos) (x y : Nat) :
    (l.any fun pos => pos.x == x && pos.y == y) = true ↔ ({ x := x, y := y } : Pos) ∈ l := by
  rw [List.any_eq_true]
  constructor
  · rintro ⟨p, hp, hb⟩
    simp only [Bool.and_eq_true, beq_iff_eq] at hb
    have : p = { x := x, y := y } := by
      cases p
      simp only at hb
      rw [hb.1, hb.2]
    exact this ▸ hp
  · intro hm
    exact ⟨_, hm, by simp⟩

/-! Characterization of `handleCellClick`: either a silent no-op, a first
extension from the anchor, or a continuation append. -/

theorem handleCellClick_spec (s : GameState) (x y : Nat) :
    handleCellClick s x y = s ∨
    ((getCell s.grid y x).isEmpty = false ∧
      s.path.length = 1 ∧
      isAdjacent s.characterPos { x := x, y := y } = true ∧
      handleCellClick s x y =
        { s with path := s.path ++ [{ x := x, y := y }],
                 selectedColor := (getCell s.grid y x).color }) ∨
    ((getCell s.grid y x).isEmpty = false ∧
      s.path.length ≠ 1 ∧
      jsStrictEq (getCell s.grid y x).color s.selectedColor = true ∧
      ({ x := x, y := y } : Pos) ∉ s.path ∧
      handleCellClick s x y = { s with path := s.path ++ [{ x := x, y := y }] }) := by
  unfold handleCellClick handleCellClickCore
  split_ifs with h1 h2 h3 h4 h5
  · exact Or.inl rfl
  · refine Or.inr (Or.inl ⟨?_, h2, h3, rfl⟩)
    simp only [Bool.or_eq_true, not_or, Bool.and_eq_true] at h1
    exact Bool.not_eq_true _ ▸ (by simpa using h1.1)
  · exact Or.inl rfl
  · exact Or.inl rfl
  · refine Or.inr (Or.inr ⟨?_, h2, h4, ?_, rfl⟩)
    · simp only [Bool.or_eq_true, not_or, Bool.and_eq_true] at h1
      exact Bool.not_eq_true _ ▸ (by simpa using h1.1)
    · intro hm
      exact h5 ((pos_any_mem s.path x y).mpr hm)
  · exact Or.inl rfl

theorem handleCellClick_same (s : GameState) (x y : Nat) :
    (handleCellClick s x y).grid = s.grid ∧
    (handleCellClick s x y).characterPos = s.characterPos ∧
    (handleCellClick s x y).isAnimating = s.isAnimating ∧
    (handleCellClick s x y).isDragging = s.isDragging ∧
    (handleCellClick s x y).animStep = s.animStep := by
  rcases handleCellClick_spec s x y with h | ⟨_, _, _, h⟩ | ⟨_, _, _, _, h⟩ <;>
    rw [h] <;> exact ⟨rfl, rfl, rfl, rfl, rfl⟩

theorem stateInv_set_drag (s : GameState) (b : Bool) (h : StateInv s) :
    StateInv { s with isDragging := b } := by
  unfold StateInv at h ⊢
  exact h

/-! Facts about the commit grid update (clear path cells, then un-empty the
character's cell). -/

theorem setEmptyFlag_color (g : Grid) (p : Pos) (b : Bool) (y x : Nat) :
    (getCell (setEmptyFlag g p b) y x).color = (getCell g y x).color := by
  unfold setEmptyFlag
  rw [getCell_setCell_pointwise]
  split_ifs with h
  · obtain ⟨hy, hx, _, _⟩ := h
    subst hy; subst hx
    rfl
  · rfl

theorem flagFold_color (ps : List Pos) :
    ∀ (g : Grid) (y x : Nat),
      (getCell (ps.foldl (fun g' p => setEmptyFlag g' p true) g) y x).color =
        (getCell g y x).color := by
  induction ps with
  | nil => intro g y x; rfl
  | cons p rest ih =>
    intro g y x
    show (getCell (rest.foldl _ (setEmptyFlag g p true)) y x).color = _
    rw [ih (setEmptyFlag g p true) y x, setEmptyFlag_color]

theorem setEmptyFlagTrue_mono (g : Grid) (p : Pos) (y x : Nat)
    (h : (getCell (setEmptyFlag g p true) y x).isEmpty = false) :
    (getCell g y x).isEmpty = false := by
  unfold setEmptyFlag at h
  rw [getCell_setCell_pointwise] at h
  split_ifs at h with hc
  exact h

theorem flagFold_mono (ps : List Pos) :
    ∀ (g : Grid) (y x : Nat),
      (getCell (ps.foldl (fun g' p => setEmptyFlag g' p true) g) y x).isEmpty = false →
      (getCell g y x).isEmpty = false := by
  induction ps with
  | nil => intro g y x h; exact h
  | cons p rest ih =>
    intro g y x h
    exact setEmptyFlagTrue_mono g p y x (ih (setEmptyFlag g p true) y x h)

theorem flagFold_shape (ps : List Pos) :
    ∀ (g : Grid), ShapeG g → ShapeG (ps.foldl (fun g' p => setEmptyFlag g' p true) g) := by
  induction ps with
  | nil => intro g h; exact h
  | cons p rest ih =>
    intro g h
    exact ih _ (shapeG_setCell h _ _ _)

theorem commitGrid_shape (g : Grid) (ps : List Pos) (cp : Pos) (h : ShapeG g) :
    ShapeG (commitGrid g ps cp) :=
  shapeG_setCell (flagFold_shape ps g h) _ _ _

theorem setEmptyFlag_pointwise (g : Grid) (p : Pos) (b : Bool) (y x : Nat) :
    getCell (setEmptyFlag g p b) y x =
      if y = p.y ∧ x = p.x ∧ p.y < g.length ∧ p.x < (g.getD p.y []).length
      then { color := (getCell g p.y p.x).color, isEmpty := b }
      else getCell g y x := by
  unfold setEmptyFlag
  exact getCell_setCell_pointwise g p.y p.x _ y x

theorem commitGrid_nes (g : Grid) (ps : List Pos) (cp : Pos)
    (hnes : NonEmptySome g) (hcp : (getCell g cp.y cp.x).color ≠ none) :
    NonEmptySome (commitGrid g ps cp) := by
  intro y x h
  unfold commitGrid at h ⊢
  rw [setEmptyFlag_pointwise] at h ⊢
  split_ifs at h ⊢ with hc
  · show ¬(getCell (ps.foldl (fun g' p => setEmptyFlag g' p true) g) cp.y cp.x).color = none
    rw [flagFold_color]
    exact hcp
  · rw [flagFold_color]
    exact hnes y x (flagFold_mono ps g y x h)

/-! Preservation of the master invariant by each event. -/

theorem stateInv_click (s : GameState) (x y : Nat) (hInv : StateInv s) :
    StateInv (handleCellClick s x y) := by
  obtain ⟨hsh, hnes, hne, hnd, htail, hiff, hhead, hanim2, hrange, hcrange, hcmem, hheadcol⟩ :=
    hInv
  rcases handleCellClick_spec s x y with h | ⟨hcell, hlen, hadj, h⟩ | ⟨hcell, hlen, hcol, hmem, h⟩
  · rw [h]
    exact ⟨hsh, hnes, hne, hnd, htail, hiff, hhead, hanim2, hrange, hcrange, hcmem, hheadcol⟩
  · -- first extension from the anchor (path length 1)
    have hanimF : s.isAnimating = false := by
      cases ha : s.isAnimating with
      | false => rfl
      | true => exact absurd hlen (by have := hanim2 ha; omega)
    obtain ⟨a, hpa⟩ := List.length_eq_one.mp hlen
    have hac : a = s.characterPos := by
      have := hhead hanimF
      rw [hpa] at this
      exact this
    have htne : ({ x := x, y := y } : Pos) ≠ a := by
      rw [hac]
      exact fun he => isAdjacent_ne hadj he.symm
    have hxy7 := nonempty_in_range hsh hcell
    have hcolor : (getCell s.grid y x).color ≠ none := hnes y x hcell
    rw [h]
    refine ⟨hsh, hnes, by simp, ?_, ?_, ?_, ?_, ?_, ?_, hcrange, ?_, ?_⟩
    · rw [hpa]
      simp [htne.symm]
    · intro p hp
      rw [hpa] at hp
      simp only [List.cons_append, List.nil_append, List.drop_succ_cons, List.drop_zero] at hp
      have : p = { x := x, y := y } := by simpa using hp
      subst this
      exact ⟨hcell, rfl⟩
    · constructor
      · intro hc
        exact absurd hc hcolor
      · intro hc
        rw [hpa] at hc
        simp at hc
    · intro _
      rw [hpa, hac]
      rfl
    · intro _
      rw [hpa]
      simp
    · intro p hp
      rcases List.mem_append.mp hp with hp | hp
      · exact hrange p hp
      · have : p = { x := x, y := y } := by simpa using hp
        subst this
        exact ⟨hxy7.2, hxy7.1⟩
    · intro ha
      exact List.mem_append.mpr (Or.inl (hcmem ha))
    · rw [headD_append _ _ hne]
      exact hheadcol
  · -- continuation append (path length at least 2)
    have hlen2 : 2 ≤ s.path.length := by
      have h1 : 1 ≤ s.path.length := List.length_pos.mpr hne
      omega
    obtain ⟨hceq, hcne⟩ := jsStrictEq_some hcol
    have hxy7 := nonempty_in_range hsh hcell
    rw [h]
    refine ⟨hsh, hnes, by simp, ?_, ?_, ?_, ?_, ?_, ?_, hcrange, ?_, ?_⟩
    · rw [List.nodup_append]
      exact ⟨hnd, List.nodup_singleton _, by
        intro a ha hb
        have : a = { x := x, y := y } := by simpa using hb
        exact hmem (this ▸ ha)⟩
    · intro p hp
      rw [List.drop_append_of_le_length (by omega)] at hp
      rcases List.mem_append.mp hp with hp | hp
      · exact htail p hp
      · have : p = { x := x, y := y } := by simpa using hp
        subst this
        exact ⟨hcell, hceq⟩
    · have hscne : s.selectedColor ≠ none := by
        intro hc
        exact hlen (hiff.mp hc)
      constructor
      · intro hc
        exact absurd hc hscne
      · intro hc
        exfalso
        rw [List.length_append, List.length_singleton] at hc
        omega
    · intro ha
      rw [headD_append _ _ hne]
      exact hhead ha
    · intro _
      rw [List.length_append]
      simp
      omega
    · intro p hp
      rcases List.mem_append.mp hp with hp | hp
      · exact hrange p hp
      · have : p = { x := x, y := y } := by simpa using hp
        subst this
        exact ⟨hxy7.2, hxy7.1⟩
    · intro ha
      exact List.mem_append.mpr (Or.inl (hcmem ha))
    · rw [headD_append _ _ hne]
      exact hheadcol

theorem stateInv_confirm (s : GameState) (hInv : StateInv s) :
    StateInv (confirmPath s) := by
  obtain ⟨hsh, hnes, hne, hnd, htail, hiff, hhead, hanim2, hrange, hcrange, hcmem, hheadcol⟩ :=
    hInv
  unfold confirmPath
  split_ifs with h
  · exact ⟨hsh, hnes, hne, hnd, htail, hiff, hhead, hanim2, hrange, hcrange, hcmem, hheadcol⟩
  · have hlen1 : s.path.length ≠ 1 := by
      intro hl
      apply h
      simp [hl]
    have hanimF : s.isAnimating = false := by
      cases ha : s.isAnimating with
      | false => rfl
      | true => exact absurd (by simp [ha]) h
    refine ⟨hsh, hnes, hne, hnd, htail, hiff, ?_, ?_, hrange, hcrange, ?_, hheadcol⟩
    · intro hf
      exact absurd hf (by simp)
    · intro _
      show 2 ≤ s.path.length
      have := List.length_pos.mpr hne
      omega
    · intro _
      show s.characterPos ∈ s.path
      rw [← hhead hanimF]
      exact headD_mem dPos hne

theorem stateInv_cancel (s : GameState) (hanimF : s.isAnimating = false)
    (hInv : StateInv s) : StateInv (cancelPath s) := by
  obtain ⟨hsh, hnes, hne, hnd, htail, hiff, hhead, hanim2, hrange, hcrange, hcmem, hheadcol⟩ :=
    hInv
  have hcellcp : (getCell s.grid s.characterPos.y s.characterPos.x).color ≠ none := by
    rw [← hhead hanimF]
    exact hheadcol
  unfold cancelPath
  refine ⟨hsh, hnes, by simp, by simp, ?_, ?_, ?_, ?_, ?_, hcrange, ?_, ?_⟩
  · intro p hp
    simp at hp
  · exact ⟨fun _ => by simp, fun _ => rfl⟩
  · intro _
    rfl
  · intro hf
    rw [hanimF] at hf
    exact absurd hf (by simp)
  · intro p hp
    have : p = { x := s.characterPos.x, y := s.characterPos.y } := by simpa using hp
    subst this
    exact hcrange
  · intro hf
    rw [hanimF] at hf
    exact absurd hf (by simp)
  · exact hcellcp

theorem stateInv_after_commit (s : GameState) (g3 : Grid) (hsh3 : ShapeG g3)
    (hnes3 : NonEmptySome g3)
    (hcol3 : (getCell g3 s.characterPos.y s.characterPos.x).color ≠ none)
    (hcrange : s.characterPos.x < GRID_SIZE ∧ s.characterPos.y < GRID_SIZE) :
    StateInv { s with
      grid := g3
      path := [{ x := s.characterPos.x, y := s.characterPos.y }]
      selectedColor := none
      isAnimating := false
      animStep := 0 } := by
  refine ⟨hsh3, hnes3, by simp, by simp, ?_, ?_, ?_, ?_, ?_, hcrange, ?_, ?_⟩
  · intro p hp
    simp at hp
  · exact ⟨fun _ => by simp, fun _ => rfl⟩
  · intro _
    rfl
  · intro hf
    exact absurd hf (by simp)
  · intro p hp
    have : p = { x := s.characterPos.x, y := s.characterPos.y } := by simpa using hp
    subst this
    exact hcrange
  · intro hf
    exact absurd hf (by simp)
  · exact hcol3

theorem stateInv_tick (pick : Nat → Nat → Color) (s : GameState) (hInv : StateInv s) :
    StateInv (tickStep pick s) := by
  obtain ⟨hsh, hnes, hne, hnd, htail, hiff, hhead, hanim2, hrange, hcrange, hcmem, hheadcol⟩ :=
    hInv
  unfold tickStep
  split_ifs with h1 h2
  · exact ⟨hsh, hnes, hne, hnd, htail, hiff, hhead, hanim2, hrange, hcrange, hcmem, hheadcol⟩
  · -- final tick: commit the path, cascade, re-anchor
    have hanimT : s.isAnimating = true := by
      cases ha : s.isAnimating with
      | true => rfl
      | false => exact absurd (by simp [ha]) h1
    have hlen1 : s.path.length ≠ 1 := by
      intro hl
      apply h1
      simp [hl]
    have hcpmem := hcmem hanimT
    have hcpcol : (getCell s.grid s.characterPos.y s.characterPos.x).color ≠ none := by
      rcases mem_headD_or_drop dPos hcpmem with he | hd
      · rw [he]
        exact hheadcol
      · obtain ⟨_, hcol⟩ := htail _ hd
        rw [hcol]
        intro hcn
        exact hlen1 (hiff.mp hcn)
    have hsh2 := commitGrid_shape s.grid s.path s.characterPos hsh
    have hnes2 := commitGrid_nes s.grid s.path s.characterPos hnes hcpcol
    have hsome3 := cascadeG_all_some pick _ hsh2 hnes2 s.characterPos.x hcrange.1
      s.characterPos.y hcrange.2
    exact stateInv_after_commit s (cascadeG pick (commitGrid s.grid s.path s.characterPos))
      (cascadeG_shape pick _ hsh2) (cascadeG_nes pick _ hsh2 hnes2) hsome3.2 hcrange
  · -- walking tick: the character moves to path[animStep]
    have hanimT : s.isAnimating = true := by
      cases ha : s.isAnimating with
      | true => rfl
      | false => exact absurd (by simp [ha]) h1
    have hstep : s.animStep < s.path.length := lt_of_not_le h2
    have hpmem : s.path.getD s.animStep dPos ∈ s.path := lgetD_mem dPos hstep
    refine ⟨hsh, hnes, hne, hnd, htail, hiff, ?_, hanim2, hrange, ?_, ?_, hheadcol⟩
    · intro hf
      rw [hanimT] at hf
      exact absurd hf (by simp)
    · exact hrange _ hpmem
    · intro _
      exact hpmem

theorem stateInv_step (s : GameState) (hInv : StateInv s) :
    ∀ e : Event, StateInv (stepFn s e) := by
  intro e
  cases e with
  | click x y =>
    by_cases ha : s.isAnimating = true
    · simpa [stepFn, ha] using hInv
    · rw [show stepFn s (Event.click x y) = handleCellClick s x y by simp [stepFn, ha]]
      exact stateInv_click s x y hInv
  | mouseDown x y =>
    by_cases ha : s.isAnimating = true
    · simpa [stepFn, ha] using hInv
    · rw [show stepFn s (Event.mouseDown x y) =
          { handleCellClick s x y with isDragging := true } by simp [stepFn, ha]]
      exact stateInv_set_drag _ _ (stateInv_click s x y hInv)
  | mouseEnter x y =>
    by_cases ha : s.isAnimating = true
    · simpa [stepFn, ha] using hInv
    · by_cases hd : s.isDragging = true
      · rw [show stepFn s (Event.mouseEnter x y) = handleCellClick s x y by
          simp [stepFn, ha, hd]]
        exact stateInv_click s x y hInv
      · simpa [stepFn, ha, hd] using hInv
  | touchStart x y =>
    by_cases ha : s.isAnimating = true
    · simpa [stepFn, ha] using hInv
    · rw [show stepFn s (Event.touchStart x y) =
          { handleCellClick s x y with isDragging := true } by simp [stepFn, ha]]
      exact stateInv_set_drag _ _ (stateInv_click s x y hInv)
  | touchMove x y =>
    by_cases hd : s.isDragging = true
    · rw [show stepFn s (Event.touchMove x y) = handleCellClick s x y by simp [stepFn, hd]]
      exact stateInv_click s x y hInv
    · simpa [stepFn, hd] using hInv
  | mouseUp => exact stateInv_set_drag s false hInv
  | touchEnd => exact stateInv_set_drag s false hInv
  | confirmBtn =>
    by_cases hg : (decide (0 < s.path.length) && !s.isAnimating) = true
    · rw [show stepFn s Event.confirmBtn = confirmPath s by simp [stepFn, hg]]
      exact stateInv_confirm s hInv
    · simpa [stepFn, hg] using hInv
  | cancelBtn =>
    by_cases hg : (decide (0 < s.path.length) && !s.isAnimating) = true
    · rw [show stepFn s Event.cancelBtn = cancelPath s by simp [stepFn, hg]]
      have hanimF : s.isAnimating = false := by
        have := (Bool.and_eq_true _ _).mp hg
        simpa using this.2
      exact stateInv_cancel s hanimF hInv
    · simpa [stepFn, hg] using hInv
  | tick pick => exact stateInv_tick pick s hInv

theorem stateInv_init (pick : Nat → Nat → Color) : StateInv (initState pick) := by
  refine ⟨initializeGrid_shape pick, initializeGrid_nes pick, by simp [initState], ?_, ?_,
    ?_, ?_, ?_, ?_, ?_, ?_, ?_⟩
  · simp [initState]
  · intro p hp
    simp [initState] at hp
  · exact ⟨fun _ => rfl, fun _ => rfl⟩
  · intro _
    rfl
  · intro hf
    exact absurd hf (by simp [initState])
  · intro p hp
    have : p = { x := CENTER, y := CENTER } := by simpa [initState] using hp
    subst this
    exact ⟨by decide, by decide⟩
  · exact ⟨show CENTER < GRID_SIZE by decide, show CENTER < GRID_SIZE by decide⟩
  · intro hf
    exact absurd hf (by simp [initState])
  · show (getCell (initializeGrid pick) CENTER CENTER).color ≠ none
    rw [initializeGrid_cell, if_pos ⟨by decide, by decide⟩, if_pos ⟨rfl, rfl⟩]
    simp

theorem stateInv_reachable (pick : Nat → Nat → Color) :
    ∀ s : GameState, Reachable pick s → StateInv s := by
  intro s h
  induction h with
  | init => exact stateInv_init pick
  | step hr e ih => exact stateInv_step _ ih e

/-! Without animation ticks, the grid and the character never change. -/

theorem stepFn_noTick_frozen (s : GameState) (e : Event) (h : ∀ f, e ≠ Event.tick f) :
    (stepFn s e).grid = s.grid ∧ (stepFn s e).characterPos = s.characterPos := by
  cases e with
  | click x y =>
    by_cases ha : s.isAnimating = true
    · simp [stepFn, ha]
    · have hc := handleCellClick_same s x y
      exact ⟨by simp [stepFn, ha, hc.1], by simp [stepFn, ha, hc.2.1]⟩
  | mouseDown x y =>
    by_cases ha : s.isAnimating = true
    · simp [stepFn, ha]
    · have hc := handleCellClick_same s x y
      exact ⟨by simp [stepFn, ha, hc.1], by simp [stepFn, ha, hc.2.1]⟩
  | mouseEnter x y =>
    by_cases ha : s.isAnimating = true
    · simp [stepFn, ha]
    · by_cases hd : s.isDragging = true
      · have hc := handleCellClick_same s x y
        exact ⟨by simp [stepFn, ha, hd, hc.1], by simp [stepFn, ha, hd, hc.2.1]⟩
      · simp [stepFn, ha, hd]
  | touchStart x y =>
    by_cases ha : s.isAnimating = true
    · simp [stepFn, ha]
    · have hc := handleCellClick_same s x y
      exact ⟨by simp [stepFn, ha, hc.1], by simp [stepFn, ha, hc.2.1]⟩
  | touchMove x y =>
    by_cases hd : s.isDragging = true
    · have hc := handleCellClick_same s x y
      exact ⟨by simp [stepFn, hd, hc.1], by simp [stepFn, hd, hc.2.1]⟩
    · simp [stepFn, hd]
  | mouseUp => exact ⟨rfl, rfl⟩
  | touchEnd => exact ⟨rfl, rfl⟩
  | confirmBtn =>
    by_cases hg : (decide (0 < s.path.length) && !s.isAnimating) = true
    · have : stepFn s Event.confirmBtn = confirmPath s := by simp [stepFn, hg]
      rw [this]
      unfold confirmPath
      split_ifs <;> exact ⟨rfl, rfl⟩
    · simp [stepFn, hg]
  | cancelBtn =>
    by_cases hg : (decide (0 < s.path.length) && !s.isAnimating) = true
    · have : stepFn s Event.cancelBtn = cancelPath s := by simp [stepFn, hg]
      rw [this]
      exact ⟨rfl, rfl⟩
    · simp [stepFn, hg]
  | tick pick => exact absurd rfl (h pick)

theorem reachableNT_frozen (pick : Nat → Nat → Color) :
    ∀ s : GameState, ReachableNT pick s →
      s.grid = initializeGrid pick ∧ s.characterPos = { x := CENTER, y := CENTER } := by
  intro s h
  induction h with
  | init => exact ⟨rfl, rfl⟩
  | step hr e hnt ih =>
    obtain ⟨hg, hc⟩ := stepFn_noTick_frozen _ e hnt
    exact ⟨hg.trans ih.1, hc.trans ih.2⟩

theorem initializeGrid_center_empty (pick : Nat → Nat → Color) :
    (getCell (initializeGrid pick) CENTER CENTER).isEmpty = true := by
  rw [initializeGrid_cell, if_pos ⟨by decide, by decide⟩, if_pos ⟨rfl, rfl⟩]

theorem natAbs_sub_comm_nat (a b : Nat) :
    ((a : Int) - b).natAbs = ((b : Int) - a).natAbs := by
  omega

/-! The claim theorems. -/

/-- C1: the claim says the cascade compacts every column so that, before
refill, all remaining empty rows lie above all non-empty cells and new dots
enter only at the top.  The code violates this: on a column reading (top to
bottom) dot, dot, hole, hole, dot, dot, dot, the scan terminates with
`emptySpaces = [0, 2]`, leaving row 2 empty below the surviving dot at row 1,
and the refill then inserts a fresh dot mid-column at row 2, strictly below a
surviving dot — contradicting the code's own comment "Fill empty spaces at
the top with new dots". -/
theorem cascade_leaves_hole_below_dots :
    (fallScanG 0 GRID_SIZE gridEx []).2 = [0, 2] ∧
    (getCell (fallScanG 0 GRID_SIZE gridEx []).1 2 0).isEmpty = true ∧
    (getCell (fallScanG 0 GRID_SIZE gridEx []).1 1 0).isEmpty = false ∧
    getCell (cascadeG crRed gridEx) 2 0 = { color := some Color.red, isEmpty := false } ∧
    getCell (cascadeG crRed gridEx) 1 0 = { color := some Color.blue, isEmpty := false } := by
  exact ⟨by decide, by decide, by decide, by decide, by decide⟩

/-- C2: the claim says commit marks every path cell empty, including
`path.last`, which becomes the character's resting cell.  The code instead
runs `newGrid[characterPos.y][characterPos.x].isEmpty = false` after the
clear, so for the committed path (3,3) → (4,3) with the character at (4,3),
the cell at `path.last` = (4,3) is NOT empty right after commit, while
the other path cell (3,3) is. -/
theorem commit_sets_last_cell_nonempty :
    (getCell (commitGrid (initializeGrid crRed)
      [{ x := 3, y := 3 }, { x := 4, y := 3 }] { x := 4, y := 3 }) 3 4).isEmpty = false ∧
    (getCell (commitGrid (initializeGrid crRed)
      [{ x := 3, y := 3 }, { x := 4, y := 3 }] { x := 4, y := 3 }) 3 3).isEmpty = true := by
  exact ⟨by decide, by decide⟩

/-- C3 (amended): the character's cell is empty in every state reachable
without animation ticks — cell intents, confirm and cancel never change the
grid or the character, which stays on the initially-emptied center cell. -/
theorem character_cell_empty_without_ticks (pick : Nat → Nat → Color) (s : GameState)
    (h : ReachableNT pick s) :
    (getCell s.grid s.characterPos.y s.characterPos.x).isEmpty = true := by
  obtain ⟨hg, hc⟩ := reachableNT_frozen pick s h
  rw [hg, hc]
  exact initializeGrid_center_empty pick

/-- C3 witness: the amended theorem applied to the initial state. -/
theorem character_cell_empty_without_ticks_witness :
    (getCell (initState crRed).grid (initState crRed).characterPos.y
      (initState crRed).characterPos.x).isEmpty = true :=
  character_cell_empty_without_ticks crRed (initState crRed) ReachableNT.init

/-- C3 counterexample: after confirming the path (3,3) → (4,3) and two
walking ticks, a reachable state has the character on (4,3) whose grid cell
is still a non-empty dot — refuting "the character's cell is empty in every
reachable state". -/
theorem character_on_nonempty_cell_reachable :
    Reachable crRed sWalk ∧
    (getCell sWalk.grid sWalk.characterPos.y sWalk.characterPos.x).isEmpty = false := by
  refine ⟨?_, by decide⟩
  exact Reachable.step (Reachable.step (Reachable.step (Reachable.step Reachable.init
    (Event.click 4 3)) Event.confirmBtn) (Event.tick crRed)) (Event.tick crRed)

/-- C4 (amended): immediately after cascade every column of a well-shaped
grid contains exactly `GRID_SIZE` non-empty cells — including the character's
column: the cascade refills every empty cell and gives no special treatment
to the character's cell. -/
theorem cascade_every_column_full (pick : Nat → Nat → Color) (g : Grid) (hs : ShapeG g)
    (x : Nat) (hx : x < GRID_SIZE) : colCount (cascadeG pick g) x = GRID_SIZE :=
  colCount_full _ _ (fun i hi => cascadeG_all_full pick g hs x hx i hi)

/-- C4 witness: the amended theorem evaluated on the freshly initialized
grid and column 0. -/
theorem cascade_every_column_full_witness :
    colCount (cascadeG crRed (initializeGrid crRed)) 0 = GRID_SIZE :=
  cascade_every_column_full crRed (initializeGrid crRed) (initializeGrid_shape crRed) 0
    (by decide)

/-- C4 counterexample: after committing the path (3,3) → (4,3), the
character sits in column 4, yet that column holds `GRID_SIZE` non-empty
cells, not `GRID_SIZE - 1` — the character's cell was not kept empty. -/
theorem character_column_fully_refilled :
    Reachable crRed sCommit ∧ sCommit.characterPos = { x := 4, y := 3 } ∧
    colCount sCommit.grid 4 = GRID_SIZE ∧ colCount sCommit.grid 4 ≠ GRID_SIZE - 1 := by
  refine ⟨?_, by decide, by decide, by decide⟩
  exact Reachable.step (Reachable.step (Reachable.step (Reachable.step (Reachable.step
    Reachable.init (Event.click 4 3)) Event.confirmBtn) (Event.tick crRed))
    (Event.tick crRed)) (Event.tick crRed)

/-- C5: the claim says every intent arriving while `Animating` leaves the
state unchanged.  The touch-move route is not animation-gated: in the
reachable state `sDragAnim` (drag begun by touch-start, then Confirm pressed
so the animation is running with the drag flag still set), a touch-move cell
intent on (4,4) reaches `handleCellClick` and extends the path. -/
theorem touchmove_extends_path_while_animating :
    Reachable crRed sDragAnim ∧ sDragAnim.isAnimating = true ∧
    sDragAnim.isDragging = true ∧
    (stepFn sDragAnim (Event.touchMove 4 4)).path =
      [{ x := 3, y := 3 }, { x := 4, y := 3 }, { x := 4, y := 4 }] ∧
    stepFn sDragAnim (Event.touchMove 4 4) ≠ sDragAnim := by
  refine ⟨?_, by decide, by decide, by decide, by decide⟩
  exact Reachable.step (Reachable.step Reachable.init (Event.touchStart 4 3))
    Event.confirmBtn

/-- C6 (amended): in every reachable state the path is non-empty and
duplicate-free, every non-anchor element's cell color equals `lockedColor`,
and `lockedColor` is null exactly while the path holds only the anchor; the
clause "the first element equals the character's current position" holds
whenever the phase is Idle (`isAnimating = false`) — during animation the
character walks away from the anchor. -/
theorem path_invariants_reachable (pick : Nat → Nat → Color) (s : GameState)
    (h : Reachable pick s) :
    s.path ≠ [] ∧ s.path.Nodup ∧
    (∀ p ∈ s.path.drop 1, (getCell s.grid p.y p.x).color = s.selectedColor) ∧
    (s.selectedColor = none ↔ s.path.length = 1) ∧
    (s.isAnimating = false → s.path.headD dPos = s.characterPos) := by
  obtain ⟨_, _, hne, hnd, htail, hiff, hhead, _⟩ := stateInv_reachable pick s h
  exact ⟨hne, hnd, fun p hp => (htail p hp).2, hiff, hhead⟩

/-- C6 witness: the amended theorem applied to the initial state. -/
theorem path_invariants_reachable_witness :
    (initState crRed).path ≠ [] ∧ (initState crRed).path.Nodup ∧
    (∀ p ∈ (initState crRed).path.drop 1,
      (getCell (initState crRed).grid p.y p.x).color = (initState crRed).selectedColor) ∧
    ((initState crRed).selectedColor = none ↔ (initState crRed).path.length = 1) ∧
    ((initState crRed).isAnimating = false →
      (initState crRed).path.headD dPos = (initState crRed).characterPos) :=
  path_invariants_reachable crRed (initState crRed) Reachable.init

/-- C6 counterexample: in the reachable mid-animation state `sWalk`, the
path's first element is still the old anchor (3,3) while the character has
walked to (4,3) — refuting "its first element equals the character's current
position in every reachable state". -/
theorem anchor_differs_from_character_while_walking :
    Reachable crRed sWalk ∧ sWalk.isAnimating = true ∧
    sWalk.path.headD dPos = { x := 3, y := 3 } ∧
    sWalk.characterPos = { x := 4, y := 3 } ∧
    sWalk.path.headD dPos ≠ sWalk.characterPos := by
  refine ⟨?_, by decide, by decide, by decide, by decide⟩
  exact Reachable.step (Reachable.step (Reachable.step (Reachable.step Reachable.init
    (Event.click 4 3)) Event.confirmBtn) (Event.tick crRed)) (Event.tick crRed)

/-- C7: from a non-animating state with a non-empty path, `confirmPath`
switches the phase to Animating exactly when the path is strictly longer
than the anchor alone; in particular confirming a path of length 1 never
starts the animation. -/
theorem confirm_animates_iff_long_path (s : GameState) (ha : s.isAnimating = false)
    (hl : 1 ≤ s.path.length) :
    ((confirmPath s).isAnimating = true ↔ 1 < s.path.length) := by
  unfold confirmPath
  split_ifs with h
  · rw [ha]
    constructor
    · intro hf
      exact absurd hf (by simp)
    · intro hlt
      exfalso
      rw [ha] at h
      simp only [Bool.or_false, decide_eq_true_eq] at h
      omega
  · constructor
    · intro _
      have hne1 : s.path.length ≠ 1 := fun he => h (by simp [he])
      omega
    · intro _
      rfl

/-- C7 witness: the theorem applied to the initial state, whose path is the
bare anchor; confirming it does not animate. -/
theorem confirm_animates_iff_long_path_witness :
    (confirmPath (initState crRed)).isAnimating = true ↔
      1 < (initState crRed).path.length :=
  confirm_animates_iff_long_path (initState crRed) (by decide) (by decide)

/-- C8: every rejected cell-selection intent — empty target cell, target not
adjacent to the path's last element, wrong color on a continuing path, or
target already in the path — and every confirm with a length-1 path returns
the input state exactly, with no other effect. -/
theorem rejected_intents_are_silent_noops (s : GameState) (x y : Nat) :
    ((getCell s.grid y x).isEmpty = true → handleCellClick s x y = s) ∧
    (s.path ≠ [] →
      isAdjacent (s.path.getD (s.path.length - 1) dPos) { x := x, y := y } = false →
      handleCellClick s x y = s) ∧
    (1 < s.path.length →
      jsStrictEq (getCell s.grid y x).color s.selectedColor = false →
      handleCellClick s x y = s) ∧
    (1 < s.path.length → ({ x := x, y := y } : Pos) ∈ s.path →
      handleCellClick s x y = s) ∧
    (s.path.length = 1 → confirmPath s = s) := by
  refine ⟨?_, ?_, ?_, ?_, ?_⟩
  · intro hemp
    unfold handleCellClick handleCellClickCore
    rw [if_pos (by simp [hemp])]
  · intro hne hadj
    have hlen : 0 < s.path.length := List.length_pos.mpr hne
    unfold handleCellClick handleCellClickCore
    rw [if_pos (by
      simp only [Bool.or_eq_true, Bool.and_eq_true, decide_eq_true_eq, Bool.not_eq_true']
      exact Or.inr ⟨hlen, hadj⟩)]
  · intro hlen hcol
    rcases handleCellClick_spec s x y with h | ⟨_, hl1, _, _⟩ | ⟨_, _, hc, _, _⟩
    · exact h
    · exfalso; omega
    · rw [hc] at hcol
      exact absurd hcol (by simp)
  · intro hlen hmem
    rcases handleCellClick_spec s x y with h | ⟨_, hl1, _, _⟩ | ⟨_, _, _, hnm, _⟩
    · exact h
    · exfalso; omega
    · exact absurd hmem hnm
  · intro hlen
    unfold confirmPath
    rw [if_pos (by simp [hlen])]

/-- C8 witness: the rejection theorem applied at five concrete rejected
intents (empty anchor cell, non-adjacent cell, wrong-color cell, duplicate
cell, confirm on the bare anchor). -/
theorem rejected_intents_are_silent_noops_witness :
    handleCellClick (initState crRed) 3 3 = initState crRed ∧
    handleCellClick (initState crRed) 0 0 = initState crRed ∧
    handleCellClick sMixPath 4 2 = sMixPath ∧
    handleCellClick sMixPath 4 3 = sMixPath ∧
    confirmPath (initState crRed) = initState crRed :=
  ⟨(rejected_intents_are_silent_noops (initState crRed) 3 3).1 (by decide),
    (rejected_intents_are_silent_noops (initState crRed) 0 0).2.1 (by decide) (by decide),
    (rejected_intents_are_silent_noops sMixPath 4 2).2.2.1 (by decide) (by decide),
    (rejected_intents_are_silent_noops sMixPath 4 3).2.2.2.1 (by decide) (by decide),
    (rejected_intents_are_silent_noops (initState crRed) 0 0).2.2.2.2 (by decide)⟩

/-- C9: `isAdjacent p q` holds exactly when the Chebyshev distance
`max |p.x - q.x| |p.y - q.y|` equals 1; adjacency is symmetric for distinct
positions and irreflexive. -/
theorem adjacency_chebyshev_symm_irrefl (p q : Pos) :
    (isAdjacent p q = true ↔
      max (((p.x : Int) - q.x).natAbs) (((p.y : Int) - q.y).natAbs) = 1) ∧
    (p ≠ q → isAdjacent p q = isAdjacent q p) ∧
    isAdjacent p p = false := by
  refine ⟨?_, ?_, isAdjacent_irrefl p⟩
  · constructor
    · intro h
      simp only [isAdjacent, Bool.and_eq_true, Bool.not_eq_true', Bool.and_eq_false_iff,
        decide_eq_true_eq, decide_eq_false_iff_not] at h
      omega
    · intro h
      simp only [isAdjacent, Bool.and_eq_true, Bool.not_eq_true', Bool.and_eq_false_iff,
        decide_eq_true_eq, decide_eq_false_iff_not]
      omega
  · intro _
    simp only [isAdjacent]
    rw [natAbs_sub_comm_nat p.x q.x, natAbs_sub_comm_nat p.y q.y]

/-- C9 witness: symmetry instantiated at the distinct positions (0,0) and
(1,1). -/
theorem adjacency_chebyshev_symm_irrefl_witness :
    isAdjacent { x := 0, y := 0 } { x := 1, y := 1 } =
      isAdjacent { x := 1, y := 1 } { x := 0, y := 0 } :=
  (adjacency_chebyshev_symm_irrefl { x := 0, y := 0 } { x := 1, y := 1 }).2.1 (by decide)

/-- C10: on a well-shaped `GRID_SIZE × GRID_SIZE` grid, the unchecked read
`grid[y][x]` in `handleCellClick` is in-bounds for every in-range intent, so
the checked (fallible) handler agrees with the total one; for an intent with
`x` or `y` out of range the access is out of bounds and the handler does not
return an unchanged state — it fails (a TypeError in JS), not a silent
no-op. -/
theorem cellclick_access_bounds (s : GameState) (x y : Nat) (hs : ShapeG s.grid) :
    (x < GRID_SIZE → y < GRID_SIZE →
      handleCellClickFallible s x y = some (handleCellClick s x y)) ∧
    (GRID_SIZE ≤ x ∨ GRID_SIZE ≤ y → handleCellClickFallible s x y = none) := by
  constructor
  · intro hx hy
    have hy' : y < s.grid.length := by rw [hs.1]; exact hy
    have hx' : x < (s.grid.getD y []).length := by rw [hs.2 y hy]; exact hx
    have h1 : s.grid.get? y = some (s.grid.getD y []) := by
      rw [List.get?_eq_getElem?, List.getElem?_eq_getElem hy', List.getD_eq_getElem _ _ hy']
    have h2 : (s.grid.getD y []).get? x = some (getCell s.grid y x) := by
      unfold getCell
      rw [List.get?_eq_getElem?, List.getElem?_eq_getElem hx', List.getD_eq_getElem _ _ hx']
    unfold handleCellClickFallible handleCellClick
    rw [h1]
    simp only [Option.some_bind]
    rw [h2]
  · intro hor
    unfold handleCellClickFallible
    rcases hor with hx | hy
    · cases hyy : s.grid.get? y with
      | none => rfl
      | some row =>
        have hy7 : y < GRID_SIZE := by
          by_contra hc
          rw [List.get?_eq_none.mpr (by rw [hs.1]; omega)] at hyy
          exact Option.noConfusion hyy
        have hy' : y < s.grid.length := by rw [hs.1]; exact hy7
        have h3 : s.grid.get? y = some (s.grid.getD y []) := by
          rw [List.get?_eq_getElem?, List.getElem?_eq_getElem hy', List.getD_eq_getElem _ _ hy']
        have hrow : row = s.grid.getD y [] :=
          Option.some.inj (hyy.symm.trans h3)
        have hnone : row.get? x = none := by
          apply List.get?_eq_none.mpr
          rw [hrow, hs.2 y hy7]
          exact hx
        simp only [Option.some_bind]
        rw [hnone]
    · rw [List.get?_eq_none.mpr (by rw [hs.1]; exact hy)]
      rfl

/-- C10 witness: the bounds theorem applied at the in-range intent (2,3) and
the out-of-range intent (9,0) on the initialized grid. -/
theorem cellclick_access_bounds_witness :
    handleCellClickFallible (initState crRed) 2 3 =
      some (handleCellClick (initState crRed) 2 3) ∧
    handleCellClickFallible (initState crRed) 9 0 = none :=
  ⟨(cellclick_access_bounds (initState crRed) 2 3 (initializeGrid_shape crRed)).1
      (by decide) (by decide),
    (cellclick_access_bounds (initState crRed) 9 0 (initializeGrid_shape crRed)).2
      (Or.inl (by decide))⟩
